import Mathlib

/-!
# Adafruit MPL3115A2 driver: a shallow embedding

The driver (`Adafruit_MPL3115A2.cpp`) talks to a `TwoWire` object and to the
Arduino `delay` primitive.  The embedding records every call made on these two
collaborators in a trace and feeds the values of successive `wire->read()`
calls from a list of device responses.

Machine integers are natural numbers with the wrap-around written out
(`% 2 ^ 8`, `% 2 ^ 16`, `% 2 ^ 32`); the `int32_t` of `getAltitude` is carried
as its 32-bit two's-complement pattern.  The `float` results are carried as
rationals: when the device answers with bytes, every value the driver converts
is an integer below `2 ^ 24` divided by 4 or by 16, which binary32 represents
exactly (`conversions_exact`).

A call that waits for a device which never becomes ready does not return; in
the embedding such a call runs out of device responses and yields `none`.
-/

namespace MPL3115A2

/-! ## Compile-time configuration -/

/-- The constants of `Adafruit_MPL3115A2.h`, which is not part of the sources
at hand, together with the one preprocessor symbol the driver tests.  They are
parameters of the whole development. -/
structure Config where
  /-- Whether `__AVR_ATtiny85__` is defined (TinyWireM instead of Wire). -/
  AVR_ATtiny85 : Bool
  MPL3115A2_ADDRESS : Nat
  MPL3115A2_REGISTER_STATUS : Nat
  MPL3115A2_REGISTER_STATUS_TDR : Nat
  MPL3115A2_REGISTER_STATUS_PDR : Nat
  MPL3115A2_REGISTER_PRESSURE_MSB : Nat
  MPL3115A2_REGISTER_TEMP_MSB : Nat
  MPL3115A2_WHOAMI : Nat
  MPL3115A2_PT_DATA_CFG : Nat
  MPL3115A2_PT_DATA_CFG_TDEFE : Nat
  MPL3115A2_PT_DATA_CFG_PDEFE : Nat
  MPL3115A2_PT_DATA_CFG_DREM : Nat
  MPL3115A2_CTRL_REG1 : Nat
  MPL3115A2_CTRL_REG1_SBYB : Nat
  MPL3115A2_CTRL_REG1_OS128 : Nat
  MPL3115A2_CTRL_REG1_ALT : Nat
  MPL3115A2_CTRL_REG1_BAR : Nat

/-- Every constant that the driver passes as a `uint8_t` fits in one byte. -/
def Config.IsBytes (c : Config) : Prop :=
  c.MPL3115A2_ADDRESS < 256 ∧
  c.MPL3115A2_REGISTER_STATUS < 256 ∧
  c.MPL3115A2_WHOAMI < 256 ∧
  c.MPL3115A2_PT_DATA_CFG < 256 ∧
  c.MPL3115A2_PT_DATA_CFG_TDEFE < 256 ∧
  c.MPL3115A2_PT_DATA_CFG_PDEFE < 256 ∧
  c.MPL3115A2_PT_DATA_CFG_DREM < 256 ∧
  c.MPL3115A2_CTRL_REG1 < 256 ∧
  c.MPL3115A2_CTRL_REG1_SBYB < 256 ∧
  c.MPL3115A2_CTRL_REG1_OS128 < 256 ∧
  c.MPL3115A2_CTRL_REG1_ALT < 256 ∧
  c.MPL3115A2_CTRL_REG1_BAR < 256

instance (c : Config) : Decidable c.IsBytes := by
  unfold Config.IsBytes; infer_instance

/-- A register map for concrete evaluation: the addresses are those of the
register table (device 0x60, status 0x00, pressure 0x01, temperature 0x04,
identity 0x0C, event configuration 0x13, control-1 0x26); the bit masks are the
device's (a standard, non-ATtiny build). -/
def sampleConfig : Config where
  AVR_ATtiny85 := false
  MPL3115A2_ADDRESS := 0x60
  MPL3115A2_REGISTER_STATUS := 0x00
  MPL3115A2_REGISTER_STATUS_TDR := 0x02
  MPL3115A2_REGISTER_STATUS_PDR := 0x04
  MPL3115A2_REGISTER_PRESSURE_MSB := 0x01
  MPL3115A2_REGISTER_TEMP_MSB := 0x04
  MPL3115A2_WHOAMI := 0x0C
  MPL3115A2_PT_DATA_CFG := 0x13
  MPL3115A2_PT_DATA_CFG_TDEFE := 0x01
  MPL3115A2_PT_DATA_CFG_PDEFE := 0x02
  MPL3115A2_PT_DATA_CFG_DREM := 0x04
  MPL3115A2_CTRL_REG1 := 0x26
  MPL3115A2_CTRL_REG1_SBYB := 0x01
  MPL3115A2_CTRL_REG1_OS128 := 0x38
  MPL3115A2_CTRL_REG1_ALT := 0x80
  MPL3115A2_CTRL_REG1_BAR := 0x00

/-! ## The collaborators: bus transport and delay -/

/-- One call on a collaborator, with its arguments as passed.  For
`endTransmission` the argument is `none` when the call has no argument and
`some b` for `endTransmission(b)`; `read` carries the value the call returned. -/
inductive BusOp where
  | begin
  | beginTransmission (address : Nat)
  | write (data : Nat)
  | endTransmission (sendStop : Option Bool)
  | requestFrom (address quantity : Nat)
  | read (value : Nat)
  | delay (ms : Nat)
  deriving DecidableEq, Repr

/-- Whether an `endTransmission` call keeps the bus (no stop condition is
sent): this is what the argument `false` asks for. -/
def holdBus : BusOp → Bool
  | .endTransmission (some false) => true
  | _ => false

/-- The state threaded through the driver: the values still to be returned by
`wire->read()` and the calls made so far, oldest first. -/
structure Bus where
  rx : List Nat
  trace : List BusOp
  deriving DecidableEq, Repr

/-- A driver computation: it may stop for lack of device responses (`none`). -/
def Wire (α : Type) : Type := Bus → Option (α × Bus)

instance : Monad Wire where
  pure a := fun b => some (a, b)
  bind m f := fun b =>
    match m b with
    | none => none
    | some (a, b') => f a b'

/-- Record one call. -/
def call (op : BusOp) : Wire Unit :=
  fun b => some ((), { b with trace := b.trace ++ [op] })

/-- The call `wire->read()`: the next device response. -/
def wireRead : Wire Nat :=
  fun b =>
    match b.rx with
    | [] => none
    | v :: rx => some (v, { rx := rx, trace := b.trace ++ [BusOp.read v] })

/-- No device response is left for a loop that still waits. -/
def blocked {α : Type} : Wire α := fun _ => none

/-- The number of device responses still available. -/
def pending : Wire Nat := fun b => some (b.rx.length, b)

/-- The argument of the `endTransmission` call selected by the preprocessor:
none under `__AVR_ATtiny85__`, `false` otherwise. -/
def endTransmissionArg (c : Config) : Option Bool :=
  if c.AVR_ATtiny85 then none else some false

/-! ## Byte transaction primitives -/

/-- The function `Adafruit_MPL3115A2::read8(uint8_t a)`. -/
def read8 (c : Config) (a : Nat) : Wire Nat := do
  let a := a % 2 ^ 8
  call (.beginTransmission c.MPL3115A2_ADDRESS)
  call (.write a)
  call (.endTransmission (endTransmissionArg c))
  call (.requestFrom (c.MPL3115A2_ADDRESS % 2 ^ 8) (1 % 2 ^ 8))
  let v ← wireRead
  pure (v % 2 ^ 8)

/-- The function `Adafruit_MPL3115A2::write8(uint8_t a, uint8_t d)`. -/
def write8 (c : Config) (a d : Nat) : Wire Unit := do
  let a := a % 2 ^ 8
  let d := d % 2 ^ 8
  call (.beginTransmission c.MPL3115A2_ADDRESS)
  call (.write a)
  call (.write d)
  call (.endTransmission (endTransmissionArg c))

/-! ## Initialisation -/

/-- The function `Adafruit_MPL3115A2::begin()`. -/
def begin (c : Config) : Wire Bool := do
  call .begin
  let whoami ← read8 c c.MPL3115A2_WHOAMI
  if whoami ≠ 0xC4 then
    return false
  write8 c c.MPL3115A2_CTRL_REG1
    (c.MPL3115A2_CTRL_REG1_SBYB |||
     c.MPL3115A2_CTRL_REG1_OS128 |||
     c.MPL3115A2_CTRL_REG1_ALT)
  write8 c c.MPL3115A2_PT_DATA_CFG
    (c.MPL3115A2_PT_DATA_CFG_TDEFE |||
     c.MPL3115A2_PT_DATA_CFG_PDEFE |||
     c.MPL3115A2_PT_DATA_CFG_DREM)
  return true

/-! ## Measurements -/

/-- The loop `while (! (sta & mask)) { sta = read8(STATUS); delay(10); }`,
entered with the current `sta`.  Each iteration consumes one device response,
so the first argument, an iteration budget, is given by the callers as one more
than the number of responses available. -/
def whileNotReady (c : Config) (mask : Nat) : Nat → Nat → Wire Unit
  | 0, sta =>
    if sta &&& mask = 0 then blocked else pure ()
  | fuel + 1, sta =>
    if sta &&& mask = 0 then do
      let sta ← read8 c c.MPL3115A2_REGISTER_STATUS
      call (.delay 10)
      whileNotReady c mask fuel sta
    else pure ()

/-- The function `Adafruit_MPL3115A2::getPressure()`. -/
def getPressure (c : Config) : Wire ℚ := do
  write8 c c.MPL3115A2_CTRL_REG1
    (c.MPL3115A2_CTRL_REG1_SBYB |||
     c.MPL3115A2_CTRL_REG1_OS128 |||
     c.MPL3115A2_CTRL_REG1_BAR)
  let sta := 0
  whileNotReady c c.MPL3115A2_REGISTER_STATUS_PDR ((← pending) + 1) sta
  call (.beginTransmission c.MPL3115A2_ADDRESS)
  call (.write c.MPL3115A2_REGISTER_PRESSURE_MSB)
  call (.endTransmission (endTransmissionArg c))
  call (.requestFrom (c.MPL3115A2_ADDRESS % 2 ^ 8) (3 % 2 ^ 8))
  let mut pressure := (← wireRead) % 2 ^ 32
  pressure := (pressure <<< 8) % 2 ^ 32
  pressure := pressure ||| ((← wireRead) % 2 ^ 32)
  pressure := (pressure <<< 8) % 2 ^ 32
  pressure := pressure ||| ((← wireRead) % 2 ^ 32)
  pressure := pressure >>> 4
  let mut baro : ℚ := pressure
  baro := baro / 4
  return baro

/-- The signed value of a 32-bit two's-complement pattern. -/
def toInt32 (x : Nat) : Int :=
  if x % 2 ^ 32 < 2 ^ 31 then (x % 2 ^ 32 : Nat) else (x % 2 ^ 32 : Nat) - 2 ^ 32

/-- The operation `>>=` on an `int32_t` pattern: an arithmetic shift. -/
def sar32 (x n : Nat) : Nat :=
  if x % 2 ^ 32 < 2 ^ 31 then (x % 2 ^ 32) >>> n
  else ((x % 2 ^ 32) >>> n) ||| (2 ^ 32 - 2 ^ (32 - n))

/-- The function `Adafruit_MPL3115A2::getAltitude()`. -/
def getAltitude (c : Config) : Wire ℚ := do
  write8 c c.MPL3115A2_CTRL_REG1
    (c.MPL3115A2_CTRL_REG1_SBYB |||
     c.MPL3115A2_CTRL_REG1_OS128 |||
     c.MPL3115A2_CTRL_REG1_ALT)
  let sta := 0
  whileNotReady c c.MPL3115A2_REGISTER_STATUS_PDR ((← pending) + 1) sta
  call (.beginTransmission c.MPL3115A2_ADDRESS)
  call (.write c.MPL3115A2_REGISTER_PRESSURE_MSB)
  call (.endTransmission (endTransmissionArg c))
  call (.requestFrom (c.MPL3115A2_ADDRESS % 2 ^ 8) (3 % 2 ^ 8))
  let mut alt := (← wireRead) % 2 ^ 32
  alt := (alt <<< 8) % 2 ^ 32
  alt := alt ||| ((← wireRead) % 2 ^ 32)
  alt := (alt <<< 8) % 2 ^ 32
  alt := alt ||| ((← wireRead) % 2 ^ 32)
  alt := sar32 alt 4
  if alt &&& 0x800000 ≠ 0 then
    alt := alt ||| 0xFF000000
  let mut altitude : ℚ := toInt32 alt
  altitude := altitude / 16
  return altitude

/-- The function `Adafruit_MPL3115A2::getTemperature()`. -/
def getTemperature (c : Config) : Wire ℚ := do
  let sta := 0
  whileNotReady c c.MPL3115A2_REGISTER_STATUS_TDR ((← pending) + 1) sta
  call (.beginTransmission c.MPL3115A2_ADDRESS)
  call (.write c.MPL3115A2_REGISTER_TEMP_MSB)
  call (.endTransmission (endTransmissionArg c))
  call (.requestFrom (c.MPL3115A2_ADDRESS % 2 ^ 8) (2 % 2 ^ 8))
  let mut t := (← wireRead) % 2 ^ 16
  t := (t <<< 8) % 2 ^ 16
  t := (t ||| (← wireRead)) % 2 ^ 16
  t := t >>> 4
  let mut temp : ℚ := t
  temp := temp / 16
  return temp

/-- The three measurement calls. -/
inductive Measurement where
  | pressure
  | altitude
  | temperature
  deriving DecidableEq, Repr

/-- The measurement call selected by a `Measurement`. -/
def measure (c : Config) : Measurement → Wire ℚ
  | .pressure => getPressure c
  | .altitude => getAltitude c
  | .temperature => getTemperature c

/-! ## Descriptions of traces and of the conversions

These definitions are the vocabulary of the theorems; the theorems of the next
sections relate them to the driver functions above. -/

/-- The calls made by `read8(a)` when the device answers `v`. -/
def read8Ops (c : Config) (a v : Nat) : List BusOp :=
  [.beginTransmission c.MPL3115A2_ADDRESS, .write (a % 2 ^ 8),
   .endTransmission (endTransmissionArg c),
   .requestFrom (c.MPL3115A2_ADDRESS % 2 ^ 8) 1, .read v]

/-- The calls made by `write8(a, d)`. -/
def write8Ops (c : Config) (a d : Nat) : List BusOp :=
  [.beginTransmission c.MPL3115A2_ADDRESS, .write (a % 2 ^ 8), .write (d % 2 ^ 8),
   .endTransmission (endTransmissionArg c)]

/-- The calls made by the polling loop when the device answers the status
values `vs` in turn: one `read8` of the status register and one `delay(10)` per
value. -/
def pollOps (c : Config) : List Nat → List BusOp
  | [] => []
  | v :: vs => read8Ops c c.MPL3115A2_REGISTER_STATUS v ++ BusOp.delay 10 :: pollOps c vs

/-- The calls of a burst read of `n` registers starting at `reg`, the device
answering the bytes `vs`. -/
def burstOps (c : Config) (reg n : Nat) (vs : List Nat) : List BusOp :=
  [.beginTransmission c.MPL3115A2_ADDRESS, .write reg,
   .endTransmission (endTransmissionArg c),
   .requestFrom (c.MPL3115A2_ADDRESS % 2 ^ 8) n] ++ vs.map BusOp.read

/-- The register writes in a trace, oldest first: a register write is a
transaction in which exactly two bytes, register address and data, are
written. -/
def registerWrites : List BusOp → List (Nat × Nat)
  | .beginTransmission _ :: .write a :: .write d :: .endTransmission _ :: rest =>
    (a, d) :: registerWrites rest
  | _ :: rest => registerWrites rest
  | [] => []

/-- The status values obtained in a trace, oldest first: a status read is the
selection of the status register followed by a one-byte read request and the
read of the byte. -/
def statusReads (c : Config) : List BusOp → List Nat
  | .write r :: .endTransmission _ :: .requestFrom _ n :: .read v :: rest =>
    if r = c.MPL3115A2_REGISTER_STATUS % 2 ^ 8 ∧ n = 1 then v % 2 ^ 8 :: statusReads c rest
    else statusReads c rest
  | _ :: rest => statusReads c rest
  | [] => []

/-- The durations of the delays in a trace, oldest first. -/
def delays : List BusOp → List Nat
  | .delay ms :: rest => ms :: delays rest
  | _ :: rest => delays rest
  | [] => []

/-- The read requests in a trace, as pairs of address and byte count. -/
def readRequests : List BusOp → List (Nat × Nat)
  | .requestFrom a n :: rest => (a, n) :: readRequests rest
  | _ :: rest => readRequests rest
  | [] => []

/-- The control word written by `getPressure`. -/
def barWord (c : Config) : Nat :=
  c.MPL3115A2_CTRL_REG1_SBYB ||| c.MPL3115A2_CTRL_REG1_OS128 ||| c.MPL3115A2_CTRL_REG1_BAR

/-- The control word written by `getAltitude` and by `begin`. -/
def altWord (c : Config) : Nat :=
  c.MPL3115A2_CTRL_REG1_SBYB ||| c.MPL3115A2_CTRL_REG1_OS128 ||| c.MPL3115A2_CTRL_REG1_ALT

/-- The event-configuration word written by `begin`. -/
def cfgWord (c : Config) : Nat :=
  c.MPL3115A2_PT_DATA_CFG_TDEFE ||| c.MPL3115A2_PT_DATA_CFG_PDEFE |||
    c.MPL3115A2_PT_DATA_CFG_DREM

/-- The data-ready mask a measurement call polls for. -/
def readyMask (c : Config) : Measurement → Nat
  | .pressure => c.MPL3115A2_REGISTER_STATUS_PDR
  | .altitude => c.MPL3115A2_REGISTER_STATUS_PDR
  | .temperature => c.MPL3115A2_REGISTER_STATUS_TDR

/-- The calls of the arm step of a measurement call. -/
def armOps (c : Config) : Measurement → List BusOp
  | .pressure => write8Ops c c.MPL3115A2_CTRL_REG1 (barWord c)
  | .altitude => write8Ops c c.MPL3115A2_CTRL_REG1 (altWord c)
  | .temperature => []

/-- The first data register a measurement call reads. -/
def dataRegister (c : Config) : Measurement → Nat
  | .pressure => c.MPL3115A2_REGISTER_PRESSURE_MSB
  | .altitude => c.MPL3115A2_REGISTER_PRESSURE_MSB
  | .temperature => c.MPL3115A2_REGISTER_TEMP_MSB

/-- The number of data bytes a measurement call requests. -/
def burstCount : Measurement → Nat
  | .pressure => 3
  | .altitude => 3
  | .temperature => 2

/-- The read request of the burst read of a measurement call. -/
def burstRequest (c : Config) (m : Measurement) : BusOp :=
  .requestFrom (c.MPL3115A2_ADDRESS % 2 ^ 8) (burstCount m)

/-- The value of `pressure` in `getPressure` after the assembly of the three
bytes of the burst read and before the shift. -/
def pressureRaw (b0 b1 b2 : Nat) : Nat :=
  ((b0 % 2 ^ 32) <<< 8 % 2 ^ 32 ||| b1 % 2 ^ 32) <<< 8 % 2 ^ 32 ||| b2 % 2 ^ 32

/-- The result of `getPressure` on the three bytes of the burst read. -/
def pressureOf (b0 b1 b2 : Nat) : ℚ :=
  ((pressureRaw b0 b1 b2 >>> 4 : Nat) : ℚ) / 4

/-- The 32-bit pattern of `alt` in `getAltitude` after the assembly and the
shift by 4, before the sign test. -/
def altShifted (b0 b1 b2 : Nat) : Nat :=
  sar32 (((b0 % 2 ^ 32) <<< 8 % 2 ^ 32 ||| b1 % 2 ^ 32) <<< 8 % 2 ^ 32 ||| b2 % 2 ^ 32) 4

/-- The result of `getAltitude` on the three bytes of the burst read. -/
def altitudeOf (b0 b1 b2 : Nat) : ℚ :=
  ((toInt32 (if altShifted b0 b1 b2 &&& 0x800000 ≠ 0
      then altShifted b0 b1 b2 ||| 0xFF000000 else altShifted b0 b1 b2) : Int) : ℚ) / 16

/-- The result of `getTemperature` on the two bytes of the burst read. -/
def temperatureOf (b0 b1 : Nat) : ℚ :=
  ((((((b0 % 2 ^ 16) <<< 8) % 2 ^ 16 ||| b1) % 2 ^ 16) >>> 4 : Nat) : ℚ) / 16

/-- The split of a 24-bit value into its three bytes, most significant first. -/
def splitBytes (v : Nat) : Nat × Nat × Nat :=
  (v >>> 16, (v >>> 8) &&& 0xFF, v &&& 0xFF)

/-- The 24-bit value whose bytes, most significant first, are `b0 b1 b2`. -/
def raw24 (b0 b1 b2 : Nat) : Nat := b0 * 65536 + b1 * 256 + b2

/-- The 20-bit two's-complement reading of `s`. -/
def signed20 (s : Nat) : Int :=
  if s.testBit 19 then (s : Int) - 2 ^ 20 else s

/-- A rational that binary32 holds exactly: a significand below `2 ^ 24` in
absolute value scaled by a power of two within the exponent range. -/
def IsBinary32 (q : ℚ) : Prop :=
  ∃ m e : Int, |m| < 2 ^ 24 ∧ -149 ≤ e ∧ e ≤ 104 ∧ q = m * (2 : ℚ) ^ e

/-! ## Running the primitives -/

@[simp] theorem bind_run {α β : Type} (m : Wire α) (f : α → Wire β) (b : Bus) :
    (m >>= f) b = match m b with
      | none => none
      | some (a, b') => f a b' := rfl

@[simp] theorem pure_run {α : Type} (a : α) (b : Bus) :
    (pure a : Wire α) b = some (a, b) := rfl

@[simp] theorem call_run (op : BusOp) (rx : List Nat) (tr : List BusOp) :
    call op ⟨rx, tr⟩ = some ((), ⟨rx, tr ++ [op]⟩) := rfl

@[simp] theorem wireRead_cons (v : Nat) (rx : List Nat) (tr : List BusOp) :
    wireRead ⟨v :: rx, tr⟩ = some (v, ⟨rx, tr ++ [BusOp.read v]⟩) := rfl

@[simp] theorem wireRead_nil (tr : List BusOp) : wireRead ⟨[], tr⟩ = none := rfl

@[simp] theorem pending_run (rx : List Nat) (tr : List BusOp) :
    pending ⟨rx, tr⟩ = some (rx.length, ⟨rx, tr⟩) := rfl

theorem read8_cons (c : Config) (a v : Nat) (rx : List Nat) (tr : List BusOp) :
    read8 c a ⟨v :: rx, tr⟩ = some (v % 2 ^ 8, ⟨rx, tr ++ read8Ops c a v⟩) := by
  simp [read8, read8Ops]

theorem read8_nil (c : Config) (a : Nat) (tr : List BusOp) :
    read8 c a ⟨[], tr⟩ = none := by
  simp [read8]

theorem write8_run (c : Config) (a d : Nat) (rx : List Nat) (tr : List BusOp) :
    write8 c a d ⟨rx, tr⟩ = some ((), ⟨rx, tr ++ write8Ops c a d⟩) := by
  simp [write8, write8Ops]

/-! ## The polling loop -/

theorem whileNotReady_ready (c : Config) (mask fuel sta : Nat) (b : Bus)
    (h : sta &&& mask ≠ 0) : whileNotReady c mask fuel sta b = some ((), b) := by
  cases fuel <;> simp [whileNotReady, h]

theorem whileNotReady_run (c : Config) (mask : Nat) :
    ∀ (pre : List Nat) (fuel sta s : Nat) (rx : List Nat) (tr : List BusOp),
      sta &&& mask = 0 → (∀ x ∈ pre, (x % 2 ^ 8) &&& mask = 0) →
      (s % 2 ^ 8) &&& mask ≠ 0 → pre.length + 1 ≤ fuel →
      whileNotReady c mask fuel sta ⟨pre ++ s :: rx, tr⟩
        = some ((), ⟨rx, tr ++ pollOps c (pre ++ [s])⟩) := by
  intro pre
  induction pre with
  | nil =>
    intro fuel sta s rx tr hsta _ hs hfuel
    obtain ⟨f, rfl⟩ : ∃ f, fuel = f + 1 := ⟨fuel - 1, by simp at hfuel; omega⟩
    simp only [whileNotReady, hsta, if_true, bind_run, List.nil_append, read8_cons, call_run]
    rw [whileNotReady_ready c mask f _ _ hs]
    simp [pollOps]
  | cons x pre ih =>
    intro fuel sta s rx tr hsta hpre hs hfuel
    obtain ⟨f, rfl⟩ : ∃ f, fuel = f + 1 := ⟨fuel - 1, by simp at hfuel; omega⟩
    have hx : (x % 2 ^ 8) &&& mask = 0 := hpre x (List.mem_cons_self _ _)
    have hpre' : ∀ y ∈ pre, (y % 2 ^ 8) &&& mask = 0 :=
      fun y hy => hpre y (List.mem_cons_of_mem _ hy)
    have hf : pre.length + 1 ≤ f := by simp at hfuel; omega
    simp only [whileNotReady, hsta, if_true, bind_run, read8_cons, call_run, List.cons_append]
    rw [ih f _ s rx _ hx hpre' hs hf]
    simp [pollOps]

theorem whileNotReady_inv (c : Config) (mask : Nat) :
    ∀ (fuel sta : Nat) (rx : List Nat) (tr : List BusOp) (out : Bus),
      sta &&& mask = 0 →
      whileNotReady c mask fuel sta ⟨rx, tr⟩ = some ((), out) →
      ∃ pre s, rx = pre ++ s :: out.rx ∧ (∀ x ∈ pre, (x % 2 ^ 8) &&& mask = 0) ∧
        (s % 2 ^ 8) &&& mask ≠ 0 ∧ out.trace = tr ++ pollOps c (pre ++ [s]) := by
  intro fuel
  induction fuel with
  | zero =>
    intro sta rx tr out hsta h
    simp [whileNotReady, hsta, blocked] at h
  | succ f ih =>
    intro sta rx tr out hsta h
    cases rx with
    | nil => simp [whileNotReady, hsta, read8_nil] at h
    | cons v rx =>
      simp only [whileNotReady, hsta, if_true, bind_run, read8_cons, call_run] at h
      by_cases hv : (v % 2 ^ 8) &&& mask = 0
      · obtain ⟨pre, s, h1, h2, h3, h4⟩ := ih _ _ _ _ hv h
        refine ⟨v :: pre, s, by simp [h1], ?_, h3, ?_⟩
        · intro x hx
          rcases List.mem_cons.mp hx with rfl | hx
          · exact hv
          · exact h2 x hx
        · simp [h4, pollOps]
      · rw [whileNotReady_ready c mask f _ _ hv] at h
        simp only [Option.some.injEq, Prod.mk.injEq, true_and] at h
        subst h
        exact ⟨[], v, rfl, by simp, hv, by simp [pollOps]⟩

/-! ## The measurement calls, run on a device that becomes ready -/

theorem getPressure_run (c : Config) (pre : List Nat) (s b0 b1 b2 : Nat) (rx : List Nat)
    (tr : List BusOp)
    (hpre : ∀ x ∈ pre, (x % 2 ^ 8) &&& c.MPL3115A2_REGISTER_STATUS_PDR = 0)
    (hs : (s % 2 ^ 8) &&& c.MPL3115A2_REGISTER_STATUS_PDR ≠ 0) :
    getPressure c ⟨pre ++ s :: b0 :: b1 :: b2 :: rx, tr⟩
      = some (pressureOf b0 b1 b2,
          ⟨rx, tr ++ (write8Ops c c.MPL3115A2_CTRL_REG1 (barWord c)
                ++ pollOps c (pre ++ [s])
                ++ burstOps c c.MPL3115A2_REGISTER_PRESSURE_MSB 3 [b0, b1, b2])⟩) := by
  simp only [getPressure, bind_run, write8_run, pending_run]
  rw [whileNotReady_run c _ pre _ 0 s _ _ (Nat.zero_and _) hpre hs (by simp)]
  simp [pressureOf, pressureRaw, burstOps, barWord]

theorem getPressure_inv (c : Config) (rx : List Nat) (tr : List BusOp) (v : ℚ) (out : Bus)
    (h : getPressure c ⟨rx, tr⟩ = some (v, out)) :
    ∃ pre s b0 b1 b2, rx = pre ++ s :: b0 :: b1 :: b2 :: out.rx ∧
      (∀ x ∈ pre, (x % 2 ^ 8) &&& c.MPL3115A2_REGISTER_STATUS_PDR = 0) ∧
      (s % 2 ^ 8) &&& c.MPL3115A2_REGISTER_STATUS_PDR ≠ 0 := by
  simp only [getPressure, bind_run, write8_run, pending_run] at h
  cases hw : whileNotReady c c.MPL3115A2_REGISTER_STATUS_PDR (rx.length + 1) 0
      ⟨rx, tr ++ write8Ops c c.MPL3115A2_CTRL_REG1 (barWord c)⟩ with
  | none => simp [barWord] at hw; simp [hw] at h
  | some r =>
    obtain ⟨⟨⟩, b⟩ := r
    obtain ⟨pre, s, h1, h2, h3, -⟩ := whileNotReady_inv c _ _ _ _ _ _ (Nat.zero_and _) hw
    simp only [barWord] at hw
    rw [hw] at h
    obtain ⟨brx, btr⟩ := b
    simp only [call_run] at h
    match brx, h with
    | b0 :: b1 :: b2 :: rest, h =>
      simp only [wireRead_cons, pure_run, Option.some.injEq, Prod.mk.injEq] at h
      obtain ⟨-, rfl⟩ := h
      exact ⟨pre, s, b0, b1, b2, h1, h2, h3⟩
    | [], h => simp at h
    | [_], h => simp at h
    | [_, _], h => simp at h

theorem getAltitude_run (c : Config) (pre : List Nat) (s b0 b1 b2 : Nat) (rx : List Nat)
    (tr : List BusOp)
    (hpre : ∀ x ∈ pre, (x % 2 ^ 8) &&& c.MPL3115A2_REGISTER_STATUS_PDR = 0)
    (hs : (s % 2 ^ 8) &&& c.MPL3115A2_REGISTER_STATUS_PDR ≠ 0) :
    getAltitude c ⟨pre ++ s :: b0 :: b1 :: b2 :: rx, tr⟩
      = some (altitudeOf b0 b1 b2,
          ⟨rx, tr ++ (write8Ops c c.MPL3115A2_CTRL_REG1 (altWord c)
                ++ pollOps c (pre ++ [s])
                ++ burstOps c c.MPL3115A2_REGISTER_PRESSURE_MSB 3 [b0, b1, b2])⟩) := by
  simp only [getAltitude, bind_run, write8_run, pending_run]
  rw [whileNotReady_run c _ pre _ 0 s _ _ (Nat.zero_and _) hpre hs (by simp)]
  by_cases hb : altShifted b0 b1 b2 &&& 0x800000 = 0
  · simp [altitudeOf, altShifted, burstOps, altWord] at hb ⊢
    simp [hb]
  · simp [altitudeOf, altShifted, burstOps, altWord] at hb ⊢
    simp [hb]

theorem getAltitude_inv (c : Config) (rx : List Nat) (tr : List BusOp) (v : ℚ) (out : Bus)
    (h : getAltitude c ⟨rx, tr⟩ = some (v, out)) :
    ∃ pre s b0 b1 b2, rx = pre ++ s :: b0 :: b1 :: b2 :: out.rx ∧
      (∀ x ∈ pre, (x % 2 ^ 8) &&& c.MPL3115A2_REGISTER_STATUS_PDR = 0) ∧
      (s % 2 ^ 8) &&& c.MPL3115A2_REGISTER_STATUS_PDR ≠ 0 := by
  simp only [getAltitude, bind_run, write8_run, pending_run] at h
  cases hw : whileNotReady c c.MPL3115A2_REGISTER_STATUS_PDR (rx.length + 1) 0
      ⟨rx, tr ++ write8Ops c c.MPL3115A2_CTRL_REG1 (altWord c)⟩ with
  | none => simp [altWord] at hw; simp [hw] at h
  | some r =>
    obtain ⟨⟨⟩, b⟩ := r
    obtain ⟨pre, s, h1, h2, h3, -⟩ := whileNotReady_inv c _ _ _ _ _ _ (Nat.zero_and _) hw
    simp only [altWord] at hw
    rw [hw] at h
    obtain ⟨brx, btr⟩ := b
    simp only [call_run] at h
    match brx, h with
    | b0 :: b1 :: b2 :: rest, h =>
      simp only [wireRead_cons] at h
      split at h <;>
        · simp only [bind_run, pure_run, Option.some.injEq, Prod.mk.injEq] at h
          obtain ⟨-, rfl⟩ := h
          exact ⟨pre, s, b0, b1, b2, h1, h2, h3⟩
    | [], h => simp at h
    | [_], h => simp at h
    | [_, _], h => simp at h

theorem getTemperature_run (c : Config) (pre : List Nat) (s b0 b1 : Nat) (rx : List Nat)
    (tr : List BusOp)
    (hpre : ∀ x ∈ pre, (x % 2 ^ 8) &&& c.MPL3115A2_REGISTER_STATUS_TDR = 0)
    (hs : (s % 2 ^ 8) &&& c.MPL3115A2_REGISTER_STATUS_TDR ≠ 0) :
    getTemperature c ⟨pre ++ s :: b0 :: b1 :: rx, tr⟩
      = some (temperatureOf b0 b1,
          ⟨rx, tr ++ (pollOps c (pre ++ [s])
                ++ burstOps c c.MPL3115A2_REGISTER_TEMP_MSB 2 [b0, b1])⟩) := by
  simp only [getTemperature, bind_run, pending_run]
  rw [whileNotReady_run c _ pre _ 0 s _ _ (Nat.zero_and _) hpre hs (by simp)]
  simp [temperatureOf, burstOps]

theorem getTemperature_inv (c : Config) (rx : List Nat) (tr : List BusOp) (v : ℚ) (out : Bus)
    (h : getTemperature c ⟨rx, tr⟩ = some (v, out)) :
    ∃ pre s b0 b1, rx = pre ++ s :: b0 :: b1 :: out.rx ∧
      (∀ x ∈ pre, (x % 2 ^ 8) &&& c.MPL3115A2_REGISTER_STATUS_TDR = 0) ∧
      (s % 2 ^ 8) &&& c.MPL3115A2_REGISTER_STATUS_TDR ≠ 0 := by
  simp only [getTemperature, bind_run, pending_run] at h
  cases hw : whileNotReady c c.MPL3115A2_REGISTER_STATUS_TDR (rx.length + 1) 0 ⟨rx, tr⟩ with
  | none => simp [hw] at h
  | some r =>
    obtain ⟨⟨⟩, b⟩ := r
    obtain ⟨pre, s, h1, h2, h3, -⟩ := whileNotReady_inv c _ _ _ _ _ _ (Nat.zero_and _) hw
    rw [hw] at h
    obtain ⟨brx, btr⟩ := b
    simp only [call_run] at h
    match brx, h with
    | b0 :: b1 :: rest, h =>
      simp only [wireRead_cons, pure_run, Option.some.injEq, Prod.mk.injEq] at h
      obtain ⟨-, rfl⟩ := h
      exact ⟨pre, s, b0, b1, h1, h2, h3⟩
    | [], h => simp at h
    | [_], h => simp at h

theorem begin_run (c : Config) (w : Nat) (rx : List Nat) (tr : List BusOp) :
    begin c ⟨w :: rx, tr⟩ =
      if w % 2 ^ 8 ≠ 0xC4 then
        some (false, ⟨rx, tr ++ (BusOp.begin :: read8Ops c c.MPL3115A2_WHOAMI w)⟩)
      else
        some (true, ⟨rx, tr ++ (BusOp.begin :: read8Ops c c.MPL3115A2_WHOAMI w
          ++ write8Ops c c.MPL3115A2_CTRL_REG1 (altWord c)
          ++ write8Ops c c.MPL3115A2_PT_DATA_CFG (cfgWord c))⟩) := by
  simp only [begin, bind_run, call_run, read8_cons]
  by_cases hw : w % 256 = 196
  · simp [hw, write8_run, altWord, cfgWord]
  · simp [hw]

/-! ## Reading traces -/

theorem registerWrites_write8Ops (c : Config) (a d : Nat) (rest : List BusOp) :
    registerWrites (write8Ops c a d ++ rest) = (a % 2 ^ 8, d % 2 ^ 8) :: registerWrites rest := by
  simp [write8Ops, registerWrites]

theorem registerWrites_pollOps (c : Config) (vs : List Nat) (rest : List BusOp) :
    registerWrites (pollOps c vs ++ rest) = registerWrites rest := by
  induction vs with
  | nil => rfl
  | cons v vs ih => simp [pollOps, read8Ops, registerWrites, ih]

theorem registerWrites_burstOps (c : Config) (reg n : Nat) (vs : List Nat) :
    registerWrites (burstOps c reg n vs) = [] := by
  have h : ∀ vs : List Nat, registerWrites (vs.map BusOp.read) = [] := by
    intro vs
    induction vs with
    | nil => rfl
    | cons v vs ih => simp [registerWrites, ih]
  simp [burstOps, registerWrites, h]

theorem statusReads_write8Ops (c : Config) (a d x : Nat) (rest : List BusOp) :
    statusReads c (write8Ops c a d ++ .beginTransmission x :: rest)
      = statusReads c (.beginTransmission x :: rest) := by
  simp [write8Ops, statusReads]

theorem statusReads_pollOps (c : Config) (vs : List Nat) (rest : List BusOp) :
    statusReads c (pollOps c vs ++ rest) = vs.map (· % 2 ^ 8) ++ statusReads c rest := by
  induction vs with
  | nil => rfl
  | cons v vs ih => simp [pollOps, read8Ops, statusReads, ih]




/-! ## Arithmetic of the conversions -/

theorem shl8_or (a b : Nat) (hb : b < 256) : (a <<< 8) ||| b = a * 256 + b := by
  rw [Nat.shiftLeft_eq, Nat.mul_comm]
  exact (Nat.mul_add_lt_is_or (i := 8) (by simpa using hb) a).symm

theorem pressureRaw_bytes (b0 b1 b2 : Nat) (h0 : b0 < 256) (h1 : b1 < 256) (h2 : b2 < 256) :
    pressureRaw b0 b1 b2 = raw24 b0 b1 b2 := by
  unfold pressureRaw raw24
  have e0 : b0 % 2 ^ 32 = b0 := Nat.mod_eq_of_lt (by omega)
  have e1 : b1 % 2 ^ 32 = b1 := Nat.mod_eq_of_lt (by omega)
  have e2 : b2 % 2 ^ 32 = b2 := Nat.mod_eq_of_lt (by omega)
  have s0 : b0 <<< 8 = b0 * 256 := by rw [Nat.shiftLeft_eq]
  rw [e0, e1, e2, s0, Nat.mod_eq_of_lt (by omega : b0 * 256 < 2 ^ 32)]
  have s1 : b0 * 256 ||| b1 = b0 * 256 + b1 := by
    have := shl8_or b0 b1 h1
    rwa [s0] at this
  rw [s1, Nat.mod_eq_of_lt
    (by rw [Nat.shiftLeft_eq]; omega : (b0 * 256 + b1) <<< 8 < 2 ^ 32), shl8_or _ _ h2]
  ring

theorem raw24_lt (b0 b1 b2 : Nat) (h0 : b0 < 256) (h1 : b1 < 256) (h2 : b2 < 256) :
    raw24 b0 b1 b2 < 2 ^ 24 := by
  unfold raw24; omega

theorem shr4_lt (r : Nat) (h : r < 2 ^ 24) : r >>> 4 < 2 ^ 20 := by
  rw [Nat.shiftRight_eq_div_pow]; omega

theorem and_bit23_of_lt (x : Nat) (h : x < 2 ^ 20) : x &&& 0x800000 = 0 := by
  have hx : x = x &&& (2 ^ 20 - 1) := by
    rw [Nat.and_pow_two_sub_one_eq_mod, Nat.mod_eq_of_lt h]
  have hc : (2 ^ 20 - 1 : Nat) &&& 0x800000 = 0 := by decide
  rw [hx, Nat.and_assoc, hc, Nat.and_zero]

theorem pressureOf_bytes (b0 b1 b2 : Nat) (h0 : b0 < 256) (h1 : b1 < 256) (h2 : b2 < 256) :
    pressureOf b0 b1 b2 = ((raw24 b0 b1 b2 >>> 4 : Nat) : ℚ) / 4 := by
  rw [pressureOf, pressureRaw_bytes b0 b1 b2 h0 h1 h2]

theorem altShifted_bytes (b0 b1 b2 : Nat) (h0 : b0 < 256) (h1 : b1 < 256) (h2 : b2 < 256) :
    altShifted b0 b1 b2 = raw24 b0 b1 b2 >>> 4 := by
  have hr := raw24_lt b0 b1 b2 h0 h1 h2
  have hp := pressureRaw_bytes b0 b1 b2 h0 h1 h2
  unfold pressureRaw at hp
  have hm : raw24 b0 b1 b2 % 2 ^ 32 = raw24 b0 b1 b2 := Nat.mod_eq_of_lt (by omega)
  unfold altShifted sar32
  rw [hp, hm, if_pos (by omega)]

theorem toInt32_small (x : Nat) (h : x < 2 ^ 31) : toInt32 x = x := by
  have hm : x % 2 ^ 32 = x := Nat.mod_eq_of_lt (by omega)
  unfold toInt32
  rw [hm, if_pos h]

theorem altitudeOf_bytes (b0 b1 b2 : Nat) (h0 : b0 < 256) (h1 : b1 < 256) (h2 : b2 < 256) :
    altitudeOf b0 b1 b2 = ((raw24 b0 b1 b2 >>> 4 : Nat) : ℚ) / 16 := by
  have hlt := shr4_lt _ (raw24_lt b0 b1 b2 h0 h1 h2)
  have hz := and_bit23_of_lt _ hlt
  unfold altitudeOf
  rw [altShifted_bytes b0 b1 b2 h0 h1 h2, if_neg (by simp [hz]), toInt32_small _ (by omega)]
  simp

theorem temperatureOf_bytes (b0 b1 : Nat) (h0 : b0 < 256) (h1 : b1 < 256) :
    temperatureOf b0 b1 = (((b0 * 256 + b1) >>> 4 : Nat) : ℚ) / 16 := by
  have e0 : b0 % 2 ^ 16 = b0 := Nat.mod_eq_of_lt (by omega)
  have s0 : b0 <<< 8 = b0 * 256 := by rw [Nat.shiftLeft_eq]
  unfold temperatureOf
  rw [e0, Nat.mod_eq_of_lt (by rw [s0]; omega : b0 <<< 8 < 2 ^ 16), shl8_or _ _ h1,
    Nat.mod_eq_of_lt (by omega)]

theorem splitBytes_spec (v : Nat) (hv : v < 2 ^ 24) :
    (splitBytes v).1 < 256 ∧ (splitBytes v).2.1 < 256 ∧ (splitBytes v).2.2 < 256 ∧
    raw24 (splitBytes v).1 (splitBytes v).2.1 (splitBytes v).2.2 = v := by
  have a1 : ∀ x : Nat, x &&& 0xFF = x % 256 := fun x => Nat.and_pow_two_sub_one_eq_mod x 8
  simp only [splitBytes, raw24]
  rw [a1, a1, Nat.shiftRight_eq_div_pow, Nat.shiftRight_eq_div_pow]
  omega

theorem splitBytes_raw24 (b0 b1 b2 : Nat) (h1 : b1 < 256) (h2 : b2 < 256) :
    splitBytes (raw24 b0 b1 b2) = (b0, b1, b2) := by
  have a1 : ∀ x : Nat, x &&& 0xFF = x % 256 := fun x => Nat.and_pow_two_sub_one_eq_mod x 8
  simp only [splitBytes, raw24]
  rw [a1, a1, Nat.shiftRight_eq_div_pow, Nat.shiftRight_eq_div_pow]
  refine Prod.ext ?_ (Prod.ext ?_ ?_) <;> simp <;> omega

theorem or3_lt (a b d : Nat) (ha : a < 256) (hb : b < 256) (hd : d < 256) :
    a ||| b ||| d < 256 :=
  Nat.or_lt_two_pow (n := 8) (Nat.or_lt_two_pow (n := 8) ha hb) hd

/-! ## The rationals of the model are the floats of the driver

For byte responses, the integer converted to `float` and its quotient by 4 or
by 16 are binary32 values, so that neither the conversion nor the division
rounds. -/

theorem isBinary32_natCast (n : Nat) (h : n < 2 ^ 24) : IsBinary32 (n : ℚ) :=
  ⟨n, 0, by rw [abs_of_nonneg (by positivity)]; exact_mod_cast h, by norm_num, by norm_num,
    by simp⟩

theorem isBinary32_div4 (n : Nat) (h : n < 2 ^ 24) : IsBinary32 ((n : ℚ) / 4) :=
  ⟨n, -2, by rw [abs_of_nonneg (by positivity)]; exact_mod_cast h, by norm_num, by norm_num,
    by rw [zpow_neg]; norm_num; ring⟩

theorem isBinary32_div16 (n : Nat) (h : n < 2 ^ 24) : IsBinary32 ((n : ℚ) / 16) :=
  ⟨n, -4, by rw [abs_of_nonneg (by positivity)]; exact_mod_cast h, by norm_num, by norm_num,
    by rw [zpow_neg]; norm_num; ring⟩

theorem conversions_exact (b0 b1 b2 : Nat) (h0 : b0 < 256) (h1 : b1 < 256) (h2 : b2 < 256) :
    IsBinary32 ((raw24 b0 b1 b2 >>> 4 : Nat) : ℚ) ∧
    IsBinary32 (pressureOf b0 b1 b2) ∧
    IsBinary32 (altitudeOf b0 b1 b2) ∧
    IsBinary32 (((b0 * 256 + b1) >>> 4 : Nat) : ℚ) ∧
    IsBinary32 (temperatureOf b0 b1) := by
  have hr : raw24 b0 b1 b2 >>> 4 < 2 ^ 24 := by
    have := shr4_lt _ (raw24_lt b0 b1 b2 h0 h1 h2)
    omega
  have ht : (b0 * 256 + b1) >>> 4 < 2 ^ 24 := by
    rw [Nat.shiftRight_eq_div_pow]; omega
  rw [pressureOf_bytes b0 b1 b2 h0 h1 h2, altitudeOf_bytes b0 b1 b2 h0 h1 h2,
    temperatureOf_bytes b0 b1 h0 h1]
  exact ⟨isBinary32_natCast _ hr, isBinary32_div4 _ hr, isBinary32_div16 _ hr,
    isBinary32_natCast _ ht, isBinary32_div16 _ ht⟩

/-! ## Reading traces, continued -/

theorem registerWrites_read8Ops (c : Config) (a v : Nat) (rest : List BusOp) :
    registerWrites (read8Ops c a v ++ rest) = registerWrites rest := by
  simp [read8Ops, registerWrites]

theorem statusReads_burstOps (c : Config) (m : Measurement) (bytes : List Nat)
    (hlen : bytes.length = burstCount m) :
    statusReads c (burstOps c (dataRegister c m) (burstCount m) bytes) = [] := by
  cases m <;>
    (simp only [burstCount] at hlen
     match bytes, hlen with
     | [b0, b1, b2], _ => simp [burstOps, burstCount, statusReads]
     | [b0, b1], _ => simp [burstOps, burstCount, statusReads])

theorem statusReads_armOps (c : Config) (m : Measurement) (x : Nat) (rest : List BusOp) :
    statusReads c (armOps c m ++ .beginTransmission x :: rest)
      = statusReads c (.beginTransmission x :: rest) := by
  cases m
  · exact statusReads_write8Ops c _ _ x rest
  · exact statusReads_write8Ops c _ _ x rest
  · rfl

theorem pollOps_cons_head (c : Config) (pre : List Nat) (s : Nat) (rest : List BusOp) :
    ∃ t, pollOps c (pre ++ [s]) ++ rest = .beginTransmission c.MPL3115A2_ADDRESS :: t := by
  cases pre with
  | nil => exact ⟨_, by simp [pollOps, read8Ops]; rfl⟩
  | cons p pre => exact ⟨_, by simp [pollOps, read8Ops]; rfl⟩

theorem delays_write8Ops (c : Config) (a d : Nat) (rest : List BusOp) :
    delays (write8Ops c a d ++ rest) = delays rest := by
  simp [write8Ops, delays]

theorem delays_pollOps (c : Config) (vs : List Nat) (rest : List BusOp) :
    delays (pollOps c vs ++ rest) = List.replicate vs.length 10 ++ delays rest := by
  induction vs with
  | nil => rfl
  | cons v vs ih => simp [pollOps, read8Ops, delays, ih, List.replicate_succ]

theorem delays_burstOps (c : Config) (reg n : Nat) (vs : List Nat) :
    delays (burstOps c reg n vs) = [] := by
  have h : ∀ vs : List Nat, delays (vs.map BusOp.read) = [] := by
    intro vs
    induction vs with
    | nil => rfl
    | cons v vs ih => simp [delays, ih]
  simp [burstOps, delays, h]

theorem delays_armOps (c : Config) (m : Measurement) (rest : List BusOp) :
    delays (armOps c m ++ rest) = delays rest := by
  cases m
  · exact delays_write8Ops c _ _ rest
  · exact delays_write8Ops c _ _ rest
  · rfl

theorem requestFrom_mem_pollOps (c : Config) (a n : Nat) (vs : List Nat)
    (h : BusOp.requestFrom a n ∈ pollOps c vs) : n = 1 := by
  induction vs with
  | nil => simp [pollOps] at h
  | cons v vs ih =>
    simp only [pollOps, read8Ops, List.cons_append, List.nil_append, List.mem_cons] at h
    rcases h with h | h | h | h | h | h | h
    · cases h
    · cases h
    · cases h
    · cases h; rfl
    · cases h
    · cases h
    · exact ih h

theorem requestFrom_not_mem_armOps (c : Config) (m : Measurement) (a n : Nat) :
    BusOp.requestFrom a n ∉ armOps c m := by
  cases m <;> simp [armOps, write8Ops]

theorem burstCount_ne_one (m : Measurement) : burstCount m ≠ 1 := by
  cases m <;> simp [burstCount]

/-! ## The measurement calls, uniformly -/

theorem measure_run (c : Config) (m : Measurement) (pre : List Nat) (s : Nat)
    (bytes rx : List Nat) (hlen : bytes.length = burstCount m)
    (hpre : ∀ x ∈ pre, (x % 2 ^ 8) &&& readyMask c m = 0)
    (hs : (s % 2 ^ 8) &&& readyMask c m ≠ 0) :
    ∃ v, measure c m ⟨pre ++ s :: (bytes ++ rx), []⟩
      = some (v, ⟨rx, armOps c m ++ pollOps c (pre ++ [s])
                ++ burstOps c (dataRegister c m) (burstCount m) bytes⟩) := by
  cases m
  · simp only [burstCount] at hlen
    match bytes, hlen with
    | [b0, b1, b2], _ =>
      exact ⟨_, by simpa [measure, armOps, dataRegister, burstCount] using
        getPressure_run c pre s b0 b1 b2 rx [] hpre hs⟩
  · simp only [burstCount] at hlen
    match bytes, hlen with
    | [b0, b1, b2], _ =>
      exact ⟨_, by simpa [measure, armOps, dataRegister, burstCount] using
        getAltitude_run c pre s b0 b1 b2 rx [] hpre hs⟩
  · simp only [burstCount] at hlen
    match bytes, hlen with
    | [b0, b1], _ =>
      exact ⟨_, by simpa [measure, armOps, dataRegister, burstCount] using
        getTemperature_run c pre s b0 b1 rx [] hpre hs⟩

theorem measure_inv (c : Config) (m : Measurement) (rx : List Nat) (v : ℚ) (out : Bus)
    (h : measure c m ⟨rx, []⟩ = some (v, out)) :
    ∃ pre s bytes, bytes.length = burstCount m ∧ rx = pre ++ s :: (bytes ++ out.rx) ∧
      (∀ x ∈ pre, (x % 2 ^ 8) &&& readyMask c m = 0) ∧
      (s % 2 ^ 8) &&& readyMask c m ≠ 0 ∧
      out.trace = armOps c m ++ pollOps c (pre ++ [s])
                ++ burstOps c (dataRegister c m) (burstCount m) bytes := by
  cases m
  · obtain ⟨pre, s, b0, b1, b2, h1, h2, h3⟩ := getPressure_inv c rx [] v out h
    refine ⟨pre, s, [b0, b1, b2], rfl, by simpa using h1, h2, h3, ?_⟩
    simp only [measure] at h
    rw [h1, getPressure_run c pre s b0 b1 b2 _ [] h2 h3] at h
    simp only [Option.some.injEq, Prod.mk.injEq] at h
    rw [← h.2]
    simp [armOps, dataRegister, burstCount]
  · obtain ⟨pre, s, b0, b1, b2, h1, h2, h3⟩ := getAltitude_inv c rx [] v out h
    refine ⟨pre, s, [b0, b1, b2], rfl, by simpa using h1, h2, h3, ?_⟩
    simp only [measure] at h
    rw [h1, getAltitude_run c pre s b0 b1 b2 _ [] h2 h3] at h
    simp only [Option.some.injEq, Prod.mk.injEq] at h
    rw [← h.2]
    simp [armOps, dataRegister, burstCount]
  · obtain ⟨pre, s, b0, b1, h1, h2, h3⟩ := getTemperature_inv c rx [] v out h
    refine ⟨pre, s, [b0, b1], rfl, by simpa using h1, h2, h3, ?_⟩
    simp only [measure] at h
    rw [h1, getTemperature_run c pre s b0 b1 _ [] h2 h3] at h
    simp only [Option.some.injEq, Prod.mk.injEq] at h
    rw [← h.2]
    simp [armOps, dataRegister, burstCount]

/-! ## Unit conversion -/

/-- Claim C1, evaluated on the code.  With the device ready at the first poll
and the burst read returning the bytes 0x80, 0x00, 0x00 (so that the shifted
value is 0x80000, bit 19 set), `getAltitude` returns 32768, whereas the 20-bit
two's-complement reading of 0x80000 divided by 16 is -32768: the sign test of
the code looks at bit 23 of the shifted value, which is never set. -/
theorem getAltitude_bit19_set_is_positive :
    (getAltitude sampleConfig ⟨[0x04, 0x80, 0x00, 0x00], []⟩).map Prod.fst = some 32768 ∧
    raw24 0x80 0x00 0x00 >>> 4 = 0x80000 ∧
    ((signed20 (raw24 0x80 0x00 0x00 >>> 4) : Int) : ℚ) / 16 = -32768 := by
  refine ⟨?_, by decide, ?_⟩
  · have hr := getAltitude_run sampleConfig [] 0x04 0x80 0x00 0x00 [] [] (by simp) (by decide)
    simp only [List.nil_append] at hr
    rw [hr]
    simp only [Option.map_some', Option.some.injEq]
    rw [altitudeOf_bytes 0x80 0x00 0x00 (by decide) (by decide) (by decide)]
    have h : raw24 0x80 0x00 0x00 >>> 4 = 524288 := by decide
    rw [h]
    norm_num
  · have h : signed20 (raw24 0x80 0x00 0x00 >>> 4) = -524288 := by decide
    rw [h]
    norm_num

/-- Claim C2.  When the burst read returns the bytes `b0 b1 b2` (each below
256, most significant first) and `r = b0*65536 + b1*256 + b2`, `getPressure`
returns exactly `(r >> 4) / 4`; `r` is below `2^24`, the result lies between 0
and 262143.75, and it is monotone in `r`: a second call whose bytes give a raw
value at least `r` returns at least as much. -/
theorem getPressure_value (c : Config)
    (pre : List Nat) (s b0 b1 b2 : Nat) (rx : List Nat)
    (pre' : List Nat) (s' d0 d1 d2 : Nat) (rx' : List Nat)
    (hpre : ∀ x ∈ pre, (x % 2 ^ 8) &&& c.MPL3115A2_REGISTER_STATUS_PDR = 0)
    (hs : (s % 2 ^ 8) &&& c.MPL3115A2_REGISTER_STATUS_PDR ≠ 0)
    (hpre' : ∀ x ∈ pre', (x % 2 ^ 8) &&& c.MPL3115A2_REGISTER_STATUS_PDR = 0)
    (hs' : (s' % 2 ^ 8) &&& c.MPL3115A2_REGISTER_STATUS_PDR ≠ 0)
    (h0 : b0 < 256) (h1 : b1 < 256) (h2 : b2 < 256)
    (k0 : d0 < 256) (k1 : d1 < 256) (k2 : d2 < 256) :
    (getPressure c ⟨pre ++ s :: b0 :: b1 :: b2 :: rx, []⟩).map Prod.fst
      = some (((raw24 b0 b1 b2 >>> 4 : Nat) : ℚ) / 4) ∧
    raw24 b0 b1 b2 < 2 ^ 24 ∧
    (0 : ℚ) ≤ ((raw24 b0 b1 b2 >>> 4 : Nat) : ℚ) / 4 ∧
    ((raw24 b0 b1 b2 >>> 4 : Nat) : ℚ) / 4 ≤ 262143.75 ∧
    (raw24 b0 b1 b2 ≤ raw24 d0 d1 d2 →
      ∃ p q : ℚ,
        (getPressure c ⟨pre ++ s :: b0 :: b1 :: b2 :: rx, []⟩).map Prod.fst = some p ∧
        (getPressure c ⟨pre' ++ s' :: d0 :: d1 :: d2 :: rx', []⟩).map Prod.fst = some q ∧
        p ≤ q) := by
  have hb := getPressure_run c pre s b0 b1 b2 rx [] hpre hs
  have hd := getPressure_run c pre' s' d0 d1 d2 rx' [] hpre' hs'
  rw [pressureOf_bytes b0 b1 b2 h0 h1 h2] at hb
  rw [pressureOf_bytes d0 d1 d2 k0 k1 k2] at hd
  have hlt := shr4_lt _ (raw24_lt b0 b1 b2 h0 h1 h2)
  refine ⟨by rw [hb]; rfl, raw24_lt b0 b1 b2 h0 h1 h2, by positivity, ?_, ?_⟩
  · have : ((raw24 b0 b1 b2 >>> 4 : Nat) : ℚ) ≤ 1048575 := by
      have : raw24 b0 b1 b2 >>> 4 ≤ 1048575 := by omega
      exact_mod_cast this
    norm_num
    linarith
  · intro hle
    refine ⟨_, _, by rw [hb]; rfl, by rw [hd]; rfl, ?_⟩
    have : raw24 b0 b1 b2 >>> 4 ≤ raw24 d0 d1 d2 >>> 4 := by
      rw [Nat.shiftRight_eq_div_pow, Nat.shiftRight_eq_div_pow]
      exact Nat.div_le_div_right hle
    have : ((raw24 b0 b1 b2 >>> 4 : Nat) : ℚ) ≤ ((raw24 d0 d1 d2 >>> 4 : Nat) : ℚ) := by
      exact_mod_cast this
    linarith

/-- The end-to-end scenario of the specification: status not ready once, then
ready, then the bytes 0x60, 0x00, 0x00; the shifted value is 393216 and the
result 393216 / 4. -/
theorem getPressure_value_witness :
    (getPressure sampleConfig ⟨[0x00, 0x04, 0x60, 0x00, 0x00], []⟩).map Prod.fst
      = some ((393216 : ℚ) / 4) ∧
    raw24 0x60 0x00 0x00 >>> 4 = 0x60000 := by
  have h := (getPressure_value sampleConfig [0x00] 0x04 0x60 0x00 0x00 []
    [] 0x04 0x60 0x00 0x01 [] (by decide) (by decide) (by simp) (by decide)
    (by decide) (by decide) (by decide) (by decide) (by decide) (by decide)).1
  have e : raw24 0x60 0x00 0x00 >>> 4 = 393216 := by decide
  rw [e] at h
  exact ⟨by simpa using h, by decide⟩

/-- Claim C3.  When the burst read returns the bytes `b0 b1` (each below 256,
most significant first) and `t = b0*256 + b1`, `getTemperature` returns exactly
`(t >> 4) / 16`, a value between 0 and 255.9375: the shifted value is read as
unsigned, also when its bit 11 is set. -/
theorem getTemperature_value (c : Config) (pre : List Nat) (s b0 b1 : Nat) (rx : List Nat)
    (hpre : ∀ x ∈ pre, (x % 2 ^ 8) &&& c.MPL3115A2_REGISTER_STATUS_TDR = 0)
    (hs : (s % 2 ^ 8) &&& c.MPL3115A2_REGISTER_STATUS_TDR ≠ 0)
    (h0 : b0 < 256) (h1 : b1 < 256) :
    (getTemperature c ⟨pre ++ s :: b0 :: b1 :: rx, []⟩).map Prod.fst
      = some ((((b0 * 256 + b1) >>> 4 : Nat) : ℚ) / 16) ∧
    (0 : ℚ) ≤ (((b0 * 256 + b1) >>> 4 : Nat) : ℚ) / 16 ∧
    (((b0 * 256 + b1) >>> 4 : Nat) : ℚ) / 16 ≤ 255.9375 := by
  have hb := getTemperature_run c pre s b0 b1 rx [] hpre hs
  rw [temperatureOf_bytes b0 b1 h0 h1] at hb
  refine ⟨by rw [hb]; rfl, by positivity, ?_⟩
  have : (((b0 * 256 + b1) >>> 4 : Nat) : ℚ) ≤ 4095 := by
    have : (b0 * 256 + b1) >>> 4 ≤ 4095 := by
      rw [Nat.shiftRight_eq_div_pow]; omega
    exact_mod_cast this
  norm_num
  linarith

/-- The bytes 0xFF, 0xF0 (bit 11 of the shifted value set) give 4095/16, which
is 255.9375 and not -0.0625. -/
theorem getTemperature_value_witness :
    (getTemperature sampleConfig ⟨[0x02, 0xFF, 0xF0], []⟩).map Prod.fst
      = some ((4095 : ℚ) / 16) ∧
    ((0xFF * 256 + 0xF0) >>> 4).testBit 11 = true ∧ (4095 : ℚ) / 16 = 255.9375 := by
  have h := (getTemperature_value sampleConfig [] 0x02 0xFF 0xF0 []
    (by simp) (by decide) (by decide) (by decide)).1
  have e : (0xFF * 256 + 0xF0) >>> 4 = 4095 := by decide
  rw [e] at h
  exact ⟨by simpa using h, by decide, by norm_num⟩

/-- Claim C6.  The assembly of `getPressure` before its shift inverts the split
of a 24-bit value into bytes: for `v` below `2^24` the three bytes of `v`, most
significant first, are below 256 and are assembled to `v`; and every byte
triple is assembled to a value below `2^24` whose split is the triple, so the
assembly is a bijection between byte triples and the values below `2^24`. -/
theorem pressureRaw_roundtrip (v b0 b1 b2 : Nat) (hv : v < 2 ^ 24)
    (h0 : b0 < 256) (h1 : b1 < 256) (h2 : b2 < 256) :
    ((splitBytes v).1 < 256 ∧ (splitBytes v).2.1 < 256 ∧ (splitBytes v).2.2 < 256 ∧
      pressureRaw (splitBytes v).1 (splitBytes v).2.1 (splitBytes v).2.2 = v) ∧
    (pressureRaw b0 b1 b2 < 2 ^ 24 ∧ splitBytes (pressureRaw b0 b1 b2) = (b0, b1, b2)) := by
  obtain ⟨s0, s1, s2, s3⟩ := splitBytes_spec v hv
  refine ⟨⟨s0, s1, s2, ?_⟩, ?_, ?_⟩
  · rw [pressureRaw_bytes _ _ _ s0 s1 s2, s3]
  · rw [pressureRaw_bytes b0 b1 b2 h0 h1 h2]; exact raw24_lt b0 b1 b2 h0 h1 h2
  · rw [pressureRaw_bytes b0 b1 b2 h0 h1 h2]; exact splitBytes_raw24 b0 b1 b2 h1 h2

/-- The value 0x123456 and the bytes 0x12, 0x34, 0x56. -/
theorem pressureRaw_roundtrip_witness :
    pressureRaw (splitBytes 0x123456).1 (splitBytes 0x123456).2.1 (splitBytes 0x123456).2.2
      = 0x123456 ∧
    splitBytes (pressureRaw 0x12 0x34 0x56) = (0x12, 0x34, 0x56) :=
  have h := pressureRaw_roundtrip 0x123456 0x12 0x34 0x56
    (by decide) (by decide) (by decide) (by decide)
  ⟨h.1.2.2.2, h.2.2⟩

/-- Claim C10.  In `getAltitude`, for bytes `b0 b1 b2` below 256, the value
after the assembly and the shift by 4 is at most 0xFFFFF, so the test
`alt & 0x800000` is zero and the sign extension is not executed; the call
returns exactly `((b0*65536 + b1*256 + b2) >> 4) / 16`, a value between 0 and
65535.9375, which is one quarter of what `getPressure` returns for the same
bytes. -/
theorem getAltitude_unsigned (c : Config) (pre : List Nat) (s b0 b1 b2 : Nat) (rx : List Nat)
    (hpre : ∀ x ∈ pre, (x % 2 ^ 8) &&& c.MPL3115A2_REGISTER_STATUS_PDR = 0)
    (hs : (s % 2 ^ 8) &&& c.MPL3115A2_REGISTER_STATUS_PDR ≠ 0)
    (h0 : b0 < 256) (h1 : b1 < 256) (h2 : b2 < 256) :
    altShifted b0 b1 b2 ≤ 0xFFFFF ∧
    altShifted b0 b1 b2 &&& 0x800000 = 0 ∧
    (getAltitude c ⟨pre ++ s :: b0 :: b1 :: b2 :: rx, []⟩).map Prod.fst
      = some (((raw24 b0 b1 b2 >>> 4 : Nat) : ℚ) / 16) ∧
    (0 : ℚ) ≤ ((raw24 b0 b1 b2 >>> 4 : Nat) : ℚ) / 16 ∧
    ((raw24 b0 b1 b2 >>> 4 : Nat) : ℚ) / 16 ≤ 65535.9375 ∧
    ∃ p : ℚ, (getPressure c ⟨pre ++ s :: b0 :: b1 :: b2 :: rx, []⟩).map Prod.fst = some p ∧
      ((raw24 b0 b1 b2 >>> 4 : Nat) : ℚ) / 16 = p / 4 := by
  have ha := getAltitude_run c pre s b0 b1 b2 rx [] hpre hs
  have hp := getPressure_run c pre s b0 b1 b2 rx [] hpre hs
  rw [altitudeOf_bytes b0 b1 b2 h0 h1 h2] at ha
  rw [pressureOf_bytes b0 b1 b2 h0 h1 h2] at hp
  have hlt := shr4_lt _ (raw24_lt b0 b1 b2 h0 h1 h2)
  have hsh := altShifted_bytes b0 b1 b2 h0 h1 h2
  refine ⟨by rw [hsh]; omega, by rw [hsh]; exact and_bit23_of_lt _ hlt, by rw [ha]; rfl,
    by positivity, ?_, _, by rw [hp]; rfl, by ring⟩
  have : ((raw24 b0 b1 b2 >>> 4 : Nat) : ℚ) ≤ 1048575 := by
    have : raw24 b0 b1 b2 >>> 4 ≤ 1048575 := by omega
    exact_mod_cast this
  norm_num
  linarith

/-- The bytes 0xFF, 0xFF, 0xFF: the shifted value is 0xFFFFF and the result is
1048575/16, which is 65535.9375. -/
theorem getAltitude_unsigned_witness :
    altShifted 0xFF 0xFF 0xFF &&& 0x800000 = 0 ∧
    (getAltitude sampleConfig ⟨[0x04, 0xFF, 0xFF, 0xFF], []⟩).map Prod.fst
      = some ((1048575 : ℚ) / 16) := by
  have h := getAltitude_unsigned sampleConfig [] 0x04 0xFF 0xFF 0xFF []
    (by simp) (by decide) (by decide) (by decide) (by decide)
  have e : raw24 0xFF 0xFF 0xFF >>> 4 = 1048575 := by decide
  rw [e] at h
  exact ⟨h.2.1, by simpa using h.2.2.1⟩

/-! ## Initialisation and the measurement protocol -/

/-- Claim C4.  For every byte `w` returned by the read of the identity
register, `begin()` returns true exactly when `w = 0xC4`.  When `w` differs
from 0xC4 the trace holds no register write; when `w = 0xC4` the register
writes are exactly two, in this order: control-1 with active | 128x
oversampling | altitude mode, then the data-event configuration with the
temperature, pressure/altitude and data-ready event flags. -/
theorem begin_identity (c : Config) (hc : c.IsBytes) (w : Nat) (hw : w < 256)
    (rx : List Nat) :
    ∃ out, begin c ⟨w :: rx, []⟩ = some (decide (w = 0xC4), out) ∧
      (w ≠ 0xC4 → registerWrites out.trace = []) ∧
      (w = 0xC4 → registerWrites out.trace =
        [(c.MPL3115A2_CTRL_REG1,
            c.MPL3115A2_CTRL_REG1_SBYB ||| c.MPL3115A2_CTRL_REG1_OS128 |||
              c.MPL3115A2_CTRL_REG1_ALT),
         (c.MPL3115A2_PT_DATA_CFG,
            c.MPL3115A2_PT_DATA_CFG_TDEFE ||| c.MPL3115A2_PT_DATA_CFG_PDEFE |||
              c.MPL3115A2_PT_DATA_CFG_DREM)]) := by
  obtain ⟨-, -, -, hcfg, h1, h2, h3, hctl, h4, h5, h6, -⟩ := hc
  have hwm : w % 2 ^ 8 = w := Nat.mod_eq_of_lt hw
  have ea : altWord c % 2 ^ 8 = altWord c := Nat.mod_eq_of_lt (or3_lt _ _ _ h4 h5 h6)
  have ec : cfgWord c % 2 ^ 8 = cfgWord c := Nat.mod_eq_of_lt (or3_lt _ _ _ h1 h2 h3)
  have e1 : c.MPL3115A2_CTRL_REG1 % 2 ^ 8 = c.MPL3115A2_CTRL_REG1 := Nat.mod_eq_of_lt hctl
  have e2 : c.MPL3115A2_PT_DATA_CFG % 2 ^ 8 = c.MPL3115A2_PT_DATA_CFG := Nat.mod_eq_of_lt hcfg
  rw [begin_run, hwm]
  by_cases h : w = 0xC4
  · refine ⟨⟨rx, BusOp.begin :: (read8Ops c c.MPL3115A2_WHOAMI w ++
        (write8Ops c c.MPL3115A2_CTRL_REG1 (altWord c) ++
          (write8Ops c c.MPL3115A2_PT_DATA_CFG (cfgWord c) ++ [])))⟩,
      by rw [if_neg (not_not.mpr h)]; simp [h], fun hn => absurd h hn, fun _ => ?_⟩
    rw [show registerWrites (BusOp.begin :: (read8Ops c c.MPL3115A2_WHOAMI w ++
          (write8Ops c c.MPL3115A2_CTRL_REG1 (altWord c) ++
            (write8Ops c c.MPL3115A2_PT_DATA_CFG (cfgWord c) ++ []))))
        = registerWrites (read8Ops c c.MPL3115A2_WHOAMI w ++
          (write8Ops c c.MPL3115A2_CTRL_REG1 (altWord c) ++
            (write8Ops c c.MPL3115A2_PT_DATA_CFG (cfgWord c) ++ []))) by
      simp [registerWrites]]
    rw [registerWrites_read8Ops, registerWrites_write8Ops, registerWrites_write8Ops,
      ea, ec, e1, e2]
    rfl
  · refine ⟨⟨rx, BusOp.begin :: (read8Ops c c.MPL3115A2_WHOAMI w ++ [])⟩,
      by rw [if_pos h]; simp [h], fun _ => ?_, fun hn => absurd hn h⟩
    rw [show registerWrites (BusOp.begin :: (read8Ops c c.MPL3115A2_WHOAMI w ++ []))
        = registerWrites (read8Ops c c.MPL3115A2_WHOAMI w ++ []) by simp [registerWrites]]
    rw [registerWrites_read8Ops]
    rfl

/-- The identity bytes 0xC4, 0x00 and 0xFF on the sample register map. -/
theorem begin_identity_witness :
    (∃ out, begin sampleConfig ⟨[0xC4], []⟩ = some (true, out) ∧
      registerWrites out.trace = [(0x26, 0xB9), (0x13, 0x07)]) ∧
    (∃ out, begin sampleConfig ⟨[0x00], []⟩ = some (false, out) ∧
      registerWrites out.trace = []) ∧
    (∃ out, begin sampleConfig ⟨[0xFF], []⟩ = some (false, out) ∧
      registerWrites out.trace = []) := by
  obtain ⟨o1, a1, -, c1⟩ := begin_identity sampleConfig (by decide) 0xC4 (by decide) []
  obtain ⟨o2, a2, b2, -⟩ := begin_identity sampleConfig (by decide) 0x00 (by decide) []
  obtain ⟨o3, a3, b3, -⟩ := begin_identity sampleConfig (by decide) 0xFF (by decide) []
  exact ⟨⟨o1, a1, c1 rfl⟩, ⟨o2, a2, b2 (by decide)⟩, ⟨o3, a3, b3 (by decide)⟩⟩

/-- Claim C5.  Whenever the device answers status values with the relevant
data-ready bit clear (`pre`), then one with the bit set (`s`), then the data
bytes, the measurement call completes, and in its trace the burst read request
(3 bytes for pressure and altitude, 2 bytes for temperature) does not occur
before the point where the status register has been read at least once and the
last status read returned the value with the bit set; the status reads before
that one returned the values of `pre`, all with the bit clear.  A call
completes on no other device responses. -/
theorem burst_read_after_ready (c : Config) (m : Measurement) (pre : List Nat) (s : Nat)
    (bytes rx : List Nat) (hlen : bytes.length = burstCount m)
    (hpre : ∀ x ∈ pre, (x % 2 ^ 8) &&& readyMask c m = 0)
    (hs : (s % 2 ^ 8) &&& readyMask c m ≠ 0) :
    (∃ v out, measure c m ⟨pre ++ s :: (bytes ++ rx), []⟩ = some (v, out) ∧
      ∃ before,
        out.trace = before ++ burstRequest c m :: bytes.map BusOp.read ∧
        burstRequest c m ∉ before ∧
        statusReads c before = pre.map (· % 2 ^ 8) ++ [s % 2 ^ 8] ∧
        (∀ x ∈ pre.map (· % 2 ^ 8), x &&& readyMask c m = 0) ∧
        (s % 2 ^ 8) &&& readyMask c m ≠ 0) ∧
    (∀ rx' v' out', measure c m ⟨rx', []⟩ = some (v', out') →
      ∃ pre' s' bytes', bytes'.length = burstCount m ∧
        rx' = pre' ++ s' :: (bytes' ++ out'.rx) ∧
        (∀ x ∈ pre', (x % 2 ^ 8) &&& readyMask c m = 0) ∧
        (s' % 2 ^ 8) &&& readyMask c m ≠ 0) := by
  obtain ⟨v, hv⟩ := measure_run c m pre s bytes rx hlen hpre hs
  refine ⟨⟨v, _, hv, armOps c m ++ pollOps c (pre ++ [s]) ++
      [.beginTransmission c.MPL3115A2_ADDRESS, .write (dataRegister c m),
       .endTransmission (endTransmissionArg c)], ?_, ?_, ?_, ?_, hs⟩, ?_⟩
  · simp [burstOps, burstRequest]
  · intro hmem
    simp only [List.mem_append, List.mem_cons, List.mem_singleton, burstRequest] at hmem
    rcases hmem with (hmem | hmem) | hmem
    · exact requestFrom_not_mem_armOps c m _ _ hmem
    · exact burstCount_ne_one m (requestFrom_mem_pollOps c _ _ _ hmem)
    · simp at hmem
  · obtain ⟨t, ht⟩ := pollOps_cons_head c pre s
      [.beginTransmission c.MPL3115A2_ADDRESS, .write (dataRegister c m),
       .endTransmission (endTransmissionArg c)]
    rw [List.append_assoc, ht, statusReads_armOps, ← ht, statusReads_pollOps]
    simp [statusReads]
  · intro x hx
    obtain ⟨y, hy, rfl⟩ := List.mem_map.mp hx
    exact hpre y hy
  · intro rx' v' out' h
    obtain ⟨pre', s', bytes', h1, h2, h3, h4, -⟩ := measure_inv c m rx' v' out' h
    exact ⟨pre', s', bytes', h1, h2, h3, h4⟩

/-- The three calls on the sample register map.  Pressure and altitude: not
ready once (0x00), then ready (0x04), then three bytes.  Temperature: the
pressure bit alone (0x04) is not ready, then 0x02 is, then two bytes. -/
theorem burst_read_after_ready_witness :
    (∃ v out, measure sampleConfig .pressure ⟨[0x00, 0x04, 0x60, 0x00, 0x00], []⟩
        = some (v, out) ∧
      ∃ before, out.trace = before ++ [.requestFrom 0x60 3, .read 0x60, .read 0x00, .read 0x00] ∧
        BusOp.requestFrom 0x60 3 ∉ before ∧
        statusReads sampleConfig before = [0x00, 0x04]) ∧
    (∃ v out, measure sampleConfig .altitude ⟨[0x00, 0x04, 0x80, 0x00, 0x00], []⟩
        = some (v, out) ∧
      ∃ before, out.trace = before ++ [.requestFrom 0x60 3, .read 0x80, .read 0x00, .read 0x00] ∧
        BusOp.requestFrom 0x60 3 ∉ before ∧
        statusReads sampleConfig before = [0x00, 0x04]) ∧
    (∃ v out, measure sampleConfig .temperature ⟨[0x04, 0x02, 0x19, 0x80], []⟩
        = some (v, out) ∧
      ∃ before, out.trace = before ++ [.requestFrom 0x60 2, .read 0x19, .read 0x80] ∧
        BusOp.requestFrom 0x60 2 ∉ before ∧
        statusReads sampleConfig before = [0x04, 0x02]) := by
  obtain ⟨⟨v1, o1, a1, b1, p1, q1, r1, -, -⟩, -⟩ :=
    burst_read_after_ready sampleConfig .pressure [0x00] 0x04 [0x60, 0x00, 0x00] []
      rfl (by decide) (by decide)
  obtain ⟨⟨v2, o2, a2, b2, p2, q2, r2, -, -⟩, -⟩ :=
    burst_read_after_ready sampleConfig .altitude [0x00] 0x04 [0x80, 0x00, 0x00] []
      rfl (by decide) (by decide)
  obtain ⟨⟨v3, o3, a3, b3, p3, q3, r3, -, -⟩, -⟩ :=
    burst_read_after_ready sampleConfig .temperature [0x04] 0x02 [0x19, 0x80] []
      rfl (by decide) (by decide)
  exact ⟨⟨v1, o1, a1, b1, p1, q1, r1⟩, ⟨v2, o2, a2, b2, p2, q2, r2⟩,
    ⟨v3, o3, a3, b3, p3, q3, r3⟩⟩

/-- Claim C7.  Whenever the device answers status values with the relevant
data-ready bit clear (`pre`), then one with the bit set (`s`), then the data
bytes, the measurement call completes, and in its trace: `getPressure` starts
with the write of active | 128x oversampling | barometric mode to control-1 and
`getAltitude` with the write of active | 128x oversampling | altitude mode to
control-1; every status read comes after that write, and it is the only
register write of the call; `getTemperature` makes no register write.  A call
completes on no other device responses. -/
theorem arm_step (c : Config) (hc : c.IsBytes) (m : Measurement) (pre : List Nat) (s : Nat)
    (bytes rx : List Nat) (hlen : bytes.length = burstCount m)
    (hpre : ∀ x ∈ pre, (x % 2 ^ 8) &&& readyMask c m = 0)
    (hs : (s % 2 ^ 8) &&& readyMask c m ≠ 0) :
    (∃ v out, measure c m ⟨pre ++ s :: (bytes ++ rx), []⟩ = some (v, out) ∧
      match m with
      | .pressure =>
        (∃ tail, out.trace =
            [.beginTransmission c.MPL3115A2_ADDRESS, .write c.MPL3115A2_CTRL_REG1,
             .write (c.MPL3115A2_CTRL_REG1_SBYB ||| c.MPL3115A2_CTRL_REG1_OS128 |||
                c.MPL3115A2_CTRL_REG1_BAR),
             .endTransmission (endTransmissionArg c)] ++ tail ∧
            statusReads c out.trace = statusReads c tail ∧
            statusReads c tail = (pre ++ [s]).map (· % 2 ^ 8)) ∧
          registerWrites out.trace =
            [(c.MPL3115A2_CTRL_REG1,
              c.MPL3115A2_CTRL_REG1_SBYB ||| c.MPL3115A2_CTRL_REG1_OS128 |||
                c.MPL3115A2_CTRL_REG1_BAR)]
      | .altitude =>
        (∃ tail, out.trace =
            [.beginTransmission c.MPL3115A2_ADDRESS, .write c.MPL3115A2_CTRL_REG1,
             .write (c.MPL3115A2_CTRL_REG1_SBYB ||| c.MPL3115A2_CTRL_REG1_OS128 |||
                c.MPL3115A2_CTRL_REG1_ALT),
             .endTransmission (endTransmissionArg c)] ++ tail ∧
            statusReads c out.trace = statusReads c tail ∧
            statusReads c tail = (pre ++ [s]).map (· % 2 ^ 8)) ∧
          registerWrites out.trace =
            [(c.MPL3115A2_CTRL_REG1,
              c.MPL3115A2_CTRL_REG1_SBYB ||| c.MPL3115A2_CTRL_REG1_OS128 |||
                c.MPL3115A2_CTRL_REG1_ALT)]
      | .temperature => registerWrites out.trace = []) ∧
    (∀ rx' v' out', measure c m ⟨rx', []⟩ = some (v', out') →
      ∃ pre' s' bytes', bytes'.length = burstCount m ∧
        rx' = pre' ++ s' :: (bytes' ++ out'.rx) ∧
        (∀ x ∈ pre', (x % 2 ^ 8) &&& readyMask c m = 0) ∧
        (s' % 2 ^ 8) &&& readyMask c m ≠ 0) := by
  obtain ⟨v, hv⟩ := measure_run c m pre s bytes rx hlen hpre hs
  obtain ⟨-, -, -, -, -, -, -, hctl, h4, h5, h6, h7⟩ := hc
  have e1 : c.MPL3115A2_CTRL_REG1 % 2 ^ 8 = c.MPL3115A2_CTRL_REG1 := Nat.mod_eq_of_lt hctl
  have eb : barWord c % 2 ^ 8 = barWord c := Nat.mod_eq_of_lt (or3_lt _ _ _ h4 h5 h7)
  have ea : altWord c % 2 ^ 8 = altWord c := Nat.mod_eq_of_lt (or3_lt _ _ _ h4 h5 h6)
  obtain ⟨t, ht⟩ := pollOps_cons_head c pre s (burstOps c (dataRegister c m) (burstCount m) bytes)
  have hpoll : statusReads c (pollOps c (pre ++ [s])
        ++ burstOps c (dataRegister c m) (burstCount m) bytes)
      = (pre ++ [s]).map (· % 2 ^ 8) := by
    rw [statusReads_pollOps, statusReads_burstOps c m bytes hlen, List.append_nil]
  refine ⟨⟨v, _, hv, ?_⟩, ?_⟩
  · cases m
    · refine ⟨⟨pollOps c (pre ++ [s]) ++ burstOps c (dataRegister c .pressure)
          (burstCount .pressure) bytes, ?_, ?_, hpoll⟩, ?_⟩
      · simp only [armOps, write8Ops, e1, eb, List.append_assoc]; rfl
      · show statusReads c (armOps c .pressure ++ pollOps c (pre ++ [s]) ++ _) = _
        rw [List.append_assoc, ht, statusReads_armOps]
      · show registerWrites (armOps c .pressure ++ pollOps c (pre ++ [s]) ++ _) = _
        simp only [armOps, List.append_assoc]
        rw [registerWrites_write8Ops, registerWrites_pollOps, registerWrites_burstOps, e1, eb]
        rfl
    · refine ⟨⟨pollOps c (pre ++ [s]) ++ burstOps c (dataRegister c .altitude)
          (burstCount .altitude) bytes, ?_, ?_, hpoll⟩, ?_⟩
      · simp only [armOps, write8Ops, e1, ea, List.append_assoc]; rfl
      · show statusReads c (armOps c .altitude ++ pollOps c (pre ++ [s]) ++ _) = _
        rw [List.append_assoc, ht, statusReads_armOps]
      · show registerWrites (armOps c .altitude ++ pollOps c (pre ++ [s]) ++ _) = _
        simp only [armOps, List.append_assoc]
        rw [registerWrites_write8Ops, registerWrites_pollOps, registerWrites_burstOps, e1, ea]
        rfl
    · show registerWrites (armOps c .temperature ++ pollOps c (pre ++ [s]) ++ _) = []
      simp only [armOps, List.nil_append]
      rw [registerWrites_pollOps, registerWrites_burstOps]
  · intro rx' v' out' h
    obtain ⟨pre', s', bytes', h1, h2, h3, h4, -⟩ := measure_inv c m rx' v' out' h
    exact ⟨pre', s', bytes', h1, h2, h3, h4⟩

/-- The three calls on the sample register map: the pressure call writes 0x39
and the altitude call 0xB9 to control-1 (0x26), first and only once, before
their two status reads; the temperature call writes no register. -/
theorem arm_step_witness :
    (∃ v out, measure sampleConfig .pressure ⟨[0x00, 0x04, 0x60, 0x00, 0x00], []⟩
        = some (v, out) ∧
      (∃ tail, out.trace =
          [.beginTransmission 0x60, .write 0x26, .write 0x39, .endTransmission (some false)]
            ++ tail ∧
          statusReads sampleConfig out.trace = statusReads sampleConfig tail ∧
          statusReads sampleConfig tail = [0x00, 0x04]) ∧
        registerWrites out.trace = [(0x26, 0x39)]) ∧
    (∃ v out, measure sampleConfig .altitude ⟨[0x00, 0x04, 0x80, 0x00, 0x00], []⟩
        = some (v, out) ∧
      (∃ tail, out.trace =
          [.beginTransmission 0x60, .write 0x26, .write 0xB9, .endTransmission (some false)]
            ++ tail ∧
          statusReads sampleConfig out.trace = statusReads sampleConfig tail ∧
          statusReads sampleConfig tail = [0x00, 0x04]) ∧
        registerWrites out.trace = [(0x26, 0xB9)]) ∧
    (∃ v out, measure sampleConfig .temperature ⟨[0x04, 0x02, 0x19, 0x80], []⟩
        = some (v, out) ∧
      registerWrites out.trace = []) :=
  ⟨(arm_step sampleConfig (by decide) .pressure [0x00] 0x04 [0x60, 0x00, 0x00] []
      rfl (by decide) (by decide)).1,
   (arm_step sampleConfig (by decide) .altitude [0x00] 0x04 [0x80, 0x00, 0x00] []
      rfl (by decide) (by decide)).1,
   (arm_step sampleConfig (by decide) .temperature [0x04] 0x02 [0x19, 0x80] []
      rfl (by decide) (by decide)).1⟩

/-- Claim C8, as stated, fails on the standard build: the `endTransmission`
call of `write8` has the argument `false`, so it keeps the bus. -/
theorem write8_releases_bus_counterexample :
    (write8 sampleConfig 0x26 0xB9 ⟨[], []⟩).map (fun r => r.2.trace.map holdBus)
      = some [false, false, false, true] := by
  decide

/-- Claim C8, amended.  For every register address `a` and data byte `d`,
`write8(a, d)` makes exactly the calls begin-transaction(device address),
write(a), write(d), end-transaction, and no read request.  Its end-transaction
call is the one `read8` makes before its one-byte read request: with the
argument `false`, keeping the bus, on the standard build, and without argument
under `__AVR_ATtiny85__`. -/
theorem write8_trace (c : Config) (a d v : Nat) (rx : List Nat)
    (ha : a < 256) (hd : d < 256) :
    write8 c a d ⟨rx, []⟩ = some ((),
      ⟨rx, [.beginTransmission c.MPL3115A2_ADDRESS, .write a, .write d,
            .endTransmission (endTransmissionArg c)]⟩) ∧
    readRequests [.beginTransmission c.MPL3115A2_ADDRESS, .write a, .write d,
            .endTransmission (endTransmissionArg c)] = [] ∧
    read8 c a ⟨v :: rx, []⟩ = some (v % 2 ^ 8,
      ⟨rx, [.beginTransmission c.MPL3115A2_ADDRESS, .write a,
            .endTransmission (endTransmissionArg c),
            .requestFrom (c.MPL3115A2_ADDRESS % 2 ^ 8) 1, .read v]⟩) ∧
    (c.AVR_ATtiny85 = false →
      endTransmissionArg c = some false ∧
      holdBus (.endTransmission (endTransmissionArg c)) = true) ∧
    (c.AVR_ATtiny85 = true → endTransmissionArg c = none) := by
  have ea : a % 2 ^ 8 = a := Nat.mod_eq_of_lt ha
  have ed : d % 2 ^ 8 = d := Nat.mod_eq_of_lt hd
  refine ⟨?_, by simp [readRequests], ?_, ?_, ?_⟩
  · rw [write8_run]; simp only [write8Ops, ea, ed, List.nil_append]
  · rw [read8_cons]; simp only [read8Ops, ea, List.nil_append]
  · intro h; simp [endTransmissionArg, h, holdBus]
  · intro h; simp [endTransmissionArg, h]

/-- The write of 0xB9 to control-1 (0x26) on the sample register map. -/
theorem write8_trace_witness :
    write8 sampleConfig 0x26 0xB9 ⟨[], []⟩ = some ((),
      ⟨[], [.beginTransmission 0x60, .write 0x26, .write 0xB9,
            .endTransmission (some false)]⟩) ∧
    read8 sampleConfig 0x26 ⟨[0xB9], []⟩ = some (0xB9,
      ⟨[], [.beginTransmission 0x60, .write 0x26, .endTransmission (some false),
            .requestFrom 0x60 1, .read 0xB9]⟩) :=
  have h := write8_trace sampleConfig 0x26 0xB9 0xB9 [] (by decide) (by decide)
  ⟨h.1, h.2.2.1⟩

/-- Claim C9.  When the first status value with the relevant data-ready bit
set is the one at position `pre.length + 1` (the values of `pre` have the bit
clear, `s` has it set) and the data bytes follow, the measurement call
completes; its trace is the arm step, then for each of these status values in
turn a read of the status register followed by `delay(10)`, then the burst
read.  So the call makes exactly `pre.length + 1` status reads and exactly
`pre.length + 1` delays, all of 10, one right after each status read, the last
one before the burst read. -/
theorem poll_iterations (c : Config) (m : Measurement) (pre : List Nat) (s : Nat)
    (bytes rx : List Nat) (hlen : bytes.length = burstCount m)
    (hpre : ∀ x ∈ pre, (x % 2 ^ 8) &&& readyMask c m = 0)
    (hs : (s % 2 ^ 8) &&& readyMask c m ≠ 0) :
    ∃ v out, measure c m ⟨pre ++ s :: (bytes ++ rx), []⟩ = some (v, out) ∧
      out.trace = armOps c m ++ pollOps c (pre ++ [s])
        ++ burstOps c (dataRegister c m) (burstCount m) bytes ∧
      statusReads c out.trace = (pre ++ [s]).map (· % 2 ^ 8) ∧
      (statusReads c out.trace).length = pre.length + 1 ∧
      delays out.trace = List.replicate (pre.length + 1) 10 := by
  obtain ⟨v, hv⟩ := measure_run c m pre s bytes rx hlen hpre hs
  have hsr : statusReads c (armOps c m ++ pollOps c (pre ++ [s])
        ++ burstOps c (dataRegister c m) (burstCount m) bytes)
      = (pre ++ [s]).map (· % 2 ^ 8) := by
    obtain ⟨t, ht⟩ := pollOps_cons_head c pre s
      (burstOps c (dataRegister c m) (burstCount m) bytes)
    rw [List.append_assoc, ht, statusReads_armOps, ← ht, statusReads_pollOps,
      statusReads_burstOps c m bytes hlen, List.append_nil]
  refine ⟨v, _, hv, rfl, hsr, ?_, ?_⟩
  · show (statusReads c (armOps c m ++ pollOps c (pre ++ [s])
        ++ burstOps c (dataRegister c m) (burstCount m) bytes)).length = _
    rw [hsr]; simp
  · show delays (armOps c m ++ pollOps c (pre ++ [s])
        ++ burstOps c (dataRegister c m) (burstCount m) bytes) = _
    rw [List.append_assoc, delays_armOps, delays_pollOps, delays_burstOps]
    simp

/-- A temperature call on the sample register map: two status values with the
temperature bit clear, then one with the bit set, then two data bytes. -/
theorem poll_iterations_witness :
    ∃ v out, measure sampleConfig .temperature ⟨[0x00, 0x04, 0x02, 0x19, 0x80], []⟩
        = some (v, out) ∧
      statusReads sampleConfig out.trace = [0x00, 0x04, 0x02] ∧
      delays out.trace = [10, 10, 10] := by
  obtain ⟨v, out, h1, -, h3, -, h5⟩ :=
    poll_iterations sampleConfig .temperature [0x00, 0x04] 0x02 [0x19, 0x80] []
      rfl (by decide) (by decide)
  exact ⟨v, out, h1, h3, h5⟩

end MPL3115A2
